import Mathlib

/-!
Verification development for the hubIntegrou merchant dashboard.

The definitions below are a shallow embedding of the TypeScript source:
* `src/types.ts` (the `OrderStatus` enum and the `Order` / `Pagination` DTOs),
* `src/constants.ts` (`NEXT_ACTION_MAP`),
* `services/api.ts` (`mapApiStatusToEnum`, `fetchWithAuth`, `refreshToken`,
  `updateOrderStatus`, `syncProducts`),
* the `OrderList` component (`fetchOrders`, `pollForNewOrders` and its
  `setOrders` / `setPagination` updaters).

JavaScript strings are modelled by `String`, JS `number` fields that the
verified code never computes with are modelled by `Int`, timestamps in
milliseconds by `Int`, and fallible effects by explicit outcome parameters.
-/

set_option maxRecDepth 4096

namespace Hub

/-- The `OrderStatus` enum from `src/types.ts` (11 values). -/
inductive OrderStatus where
  | PLC   -- Placed
  | COM   -- Confirmed
  | SPS   -- Separation Started
  | SPE   -- Separation Ended
  | DSP   -- Dispatched
  | OPA   -- Arrived at Destination
  | CON   -- Concluded
  | DDCS  -- Delivered by iFood (Concluded)
  | CAN   -- Cancelled
  | CAR   -- Cancellation Requested
  | CANCELLATION_REQUESTED -- Cancellation in Progress
deriving DecidableEq, Repr, Fintype

/-- An entry of `NEXT_ACTION_MAP` in `src/constants.ts`: button label and the
status the action transitions to. -/
structure NextAction where
  text : String
  nextStatus : OrderStatus
deriving DecidableEq, Repr

/-- `NEXT_ACTION_MAP` from `src/constants.ts`: the single next allowed action
for each order status (`null` entries become `none`). -/
def NEXT_ACTION_MAP : OrderStatus → Option NextAction
  | .PLC => some ⟨"Confirmar", .COM⟩
  | .COM => some ⟨"Concluir Separação", .SPE⟩
  | .SPS => some ⟨"Finalizar Separação", .SPE⟩
  | .SPE => some ⟨"Despachar", .DSP⟩
  | .OPA => none
  | .DSP => none
  | .CON => none
  | .DDCS => none
  | .CAN => none
  | .CAR => none
  | .CANCELLATION_REQUESTED => none

/-- The `deliveryProvider` union type of `Order` in `src/types.ts`. -/
inductive DeliveryProvider where
  | TAKEOUT
  | IFOOD
  | MERCHANT
  | UNKNOWN
deriving DecidableEq, Repr

/-- The fields of the `Order` DTO (`src/types.ts`) that the verified logic
reads: reconciliation uses `id` and `status`, `updateOrderStatus` uses
`localId` and `deliveryProvider`; `customerName` and `total` stand for the
remaining payload so that two orders with the same `id`/`status` can still
differ. -/
structure Order where
  id : String
  localId : String
  customerName : String
  total : Int
  status : OrderStatus
  deliveryProvider : DeliveryProvider
deriving DecidableEq, Repr

/-- The `Pagination` DTO from `src/types.ts`. -/
structure Pagination where
  currentPage : Nat
  perPage : Nat
  total : Nat
  totalPages : Nat
deriving DecidableEq, Repr

/-! ### Order-list polling and reconciliation (`OrderList` / `pollForNewOrders`)

`pollForNewOrders` builds `fetchedOrdersMap = new Map(fetchedOrders.map(o =>
[o.id, o]))`; for a duplicated id a JS `Map` keeps the entry inserted last. -/

/-- `fetchedOrdersMap.get(id)`: the last fetched order carrying the id. -/
def fetchedLookup (fetched : List Order) (i : String) : Option Order :=
  (fetched.filter (fun o => o.id == i)).getLast?

/-- One step of the `currentOrders.map(...)` body in the `setOrders` updater:
replace a current order by the fetched one exactly when the fetched map has
its id with a different status. -/
def applyFetched (fetched : List Order) (c : Order) : Order :=
  match fetchedLookup fetched c.id with
  | some f => if f.status ≠ c.status then f else c
  | none => c

/-- The current orders for which the updater takes the "status changed"
branch (each of these sets `hasChanged` and flashes `justUpdatedOrderId`). -/
def changedOrders (fetched current : List Order) : List Order :=
  current.filterMap (fun c =>
    match fetchedLookup fetched c.id with
    | some f => if f.status ≠ c.status then some f else none
    | none => none)

/-- `fetchedOrders.filter(o => !currentOrderIds.has(o.id))`: the brand new
orders of a poll tick. -/
def newOrdersOf (fetched current : List Order) : List Order :=
  fetched.filter (fun o => !(current.any (fun c => c.id == o.id)))

/-- The `hasChanged` flag of the `setOrders` updater: some current order was
replaced, or some brand new order was fetched. -/
def pollHasChanged (fetched current : List Order) : Bool :=
  !(changedOrders fetched current).isEmpty || !(newOrdersOf fetched current).isEmpty

/-- The whole `setOrders` updater of `pollForNewOrders`: prepend the new
orders to the updated current orders when anything changed, otherwise return
the original array to avoid a re-render. -/
def reconcileOrders (fetched current : List Order) : List Order :=
  if pollHasChanged fetched current then
    newOrdersOf fetched current ++ current.map (applyFetched fetched)
  else
    current

/-- The `setPagination` updater of `pollForNewOrders`: adopt the fetched
pagination (keeping the current page) only when the total changed. -/
def updatePollPagination (fetchedPag : Pagination) : Option Pagination → Option Pagination
  | some prev =>
      if prev.total ≠ fetchedPag.total then
        some { fetchedPag with currentPage := prev.currentPage }
      else
        some prev
  | none => none

/-- The `setNewOrderIds` updater: insert the ids of the new orders into the
set (modelled as a duplicate-free list in insertion order). -/
def addNewOrderIds (ids : List String) (newOs : List Order) : List String :=
  newOs.foldl (fun acc o => if acc.contains o.id then acc else acc ++ [o.id]) ids

/-- The `OrderList` component state touched by `fetchOrders` and
`pollForNewOrders`. -/
structure OrdersState where
  orders : List Order
  pagination : Option Pagination
  newOrderIds : List String
  justUpdatedOrderId : Option String
  error : Option String
  isLoading : Bool
deriving DecidableEq, Repr

/-- Observable effects of one `pollForNewOrders` call: whether
`api.getOrders` was invoked and whether the notification audio was played. -/
structure PollEffects where
  fetchIssued : Bool
  soundPlayed : Bool
deriving DecidableEq, Repr

/-- Interval period of the order-list poll: `setInterval(pollForNewOrders,
5000)`. -/
def POLL_INTERVAL_MS : Nat := 5000

/-- The `shouldPoll` guard of the polling effect: poll only for the "today"
or empty date range with no explicit date bounds. -/
def shouldPoll (dateRangeToday dateRangeEmpty hasDateFrom hasDateTo : Bool) : Bool :=
  (dateRangeToday || dateRangeEmpty) && !hasDateFrom && !hasDateTo

/-- One `pollForNewOrders` tick. `hidden` is `document.hidden`, `audioReady`
models `audioRef.current` being non-null (the component's loading and error
early returns render without the `<audio>` element, so the ref can be null
on reachable ticks), and `outcome` is what `api.getOrders` resolves to
(`none` models a rejected fetch, which the code only logs). The `setTimeout`
that clears `justUpdatedOrderId` after 1.5 s is outside this state model. -/
def pollTick (hidden isMuted audioReady : Bool)
    (outcome : Option (List Order × Pagination)) (s : OrdersState) :
    OrdersState × PollEffects :=
  if hidden then
    (s, ⟨false, false⟩)
  else
    match outcome with
    | none => (s, ⟨true, false⟩)
    | some (fetchedOrders, fetchedPag) =>
        let newOs := newOrdersOf fetchedOrders s.orders
        let changed := changedOrders fetchedOrders s.orders
        ({ s with
            orders := reconcileOrders fetchedOrders s.orders,
            justUpdatedOrderId :=
              match (changed.map (fun o => o.id)).getLast? with
              | some i => some i
              | none => s.justUpdatedOrderId,
            newOrderIds :=
              if newOs.isEmpty then s.newOrderIds
              else addNewOrderIds s.newOrderIds newOs,
            pagination := updatePollPagination fetchedPag s.pagination },
          ⟨true, !newOs.isEmpty && !isMuted && audioReady⟩)

/-- The `fetchOrders` callback of `OrderList`: on success store the orders
and pagination, on rejection set the user-facing error message; the spinner
always stops. (`setError(null)` runs before the request, so a successful load
clears a stale error.) -/
def fetchOrders (outcome : Option (List Order × Pagination)) (s : OrdersState) :
    OrdersState :=
  match outcome with
  | some (os, p) =>
      { s with isLoading := false, error := none, orders := os, pagination := some p }
  | none =>
      { s with isLoading := false, error := some "Falha ao carregar pedidos." }

/-! ### Token management and `fetchWithAuth` (`services/api.ts`) -/

/-- The stored token record (`TokenInfo`): token plus expiry timestamp in
milliseconds. -/
structure TokenInfo where
  token : String
  expiresAt : Int
deriving DecidableEq, Repr

/-- The persisted auth state: `hubdelivery_token_info` and
`hubdelivery_remember_me` in `localStorage`. -/
structure AuthState where
  tokenInfo : Option TokenInfo
  rememberMe : Bool
deriving DecidableEq, Repr

/-- `clearTokenInfo()`: removes both the token record and the remember-me
flag (this is what logs the user out). -/
def clearedAuth : AuthState := ⟨none, false⟩

/-- `isTokenNearlyExpired`: a missing token counts as expired. -/
def isTokenNearlyExpired (now : Int) : Option TokenInfo → Bool
  | none => true
  | some t => t.expiresAt < now

/-- `setTokenInfo`: store the token with expiry `now + (expiresIn - 60) *
1000` (a 60-second refresh buffer; `expiresIn` arrives in seconds). -/
def storedTokenInfo (now : Int) (token : String) (expiresIn : Int) : TokenInfo :=
  ⟨token, now + (expiresIn - 60) * 1000⟩

/-- What the `POST /token/refresh` round trip yields: a non-ok response, a
body without `token`/`expires_in`, or a fresh token. -/
inductive RefreshOutcome where
  | httpError
  | invalidBody
  | ok (token : String) (expiresIn : Int)
deriving DecidableEq, Repr

/-- `refreshToken()`: throws when no token is stored, when the response is
non-ok, or when the body is invalid — and in each failure case the `catch`
block runs `clearTokenInfo()` before rethrowing. Returns the new state and
whether the refresh succeeded. -/
def refreshTokenStep (now : Int) (outcome : RefreshOutcome) (s : AuthState) :
    AuthState × Bool :=
  match s.tokenInfo with
  | none => (clearedAuth, false)
  | some _ =>
      match outcome with
      | .httpError => (clearedAuth, false)
      | .invalidBody => (clearedAuth, false)
      | .ok tok exp =>
          ({ s with tokenInfo := some (storedTokenInfo now tok exp) }, true)

/-- The observable calls `fetchWithAuth` makes, in order: the token-refresh
round trip and the actual HTTP request. -/
inductive AuthEvent where
  | refreshCall
  | httpRequest
deriving DecidableEq, Repr

/-- Result of one `fetchWithAuth` call: final stored auth state, the calls
made in order, and the thrown error message (`none` = the call returned). -/
structure FetchResult where
  state : AuthState
  events : List AuthEvent
  error : Option String
deriving DecidableEq, Repr

/-- The tail of `fetchWithAuth`: issue the request once; a non-ok response
throws (clearing the stored token on a 401) and is never retried. -/
def issueRequest (requestOk : Bool) (requestStatus : Nat) (s : AuthState)
    (evs : List AuthEvent) : FetchResult :=
  if requestOk then
    ⟨s, evs ++ [.httpRequest], none⟩
  else
    ⟨if requestStatus = 401 then clearedAuth else s,
      evs ++ [.httpRequest], some "Ocorreu um erro na requisição."⟩

/-- `fetchWithAuth`: refresh the token first when it is expired and
remember-me is set; an expired token without remember-me, a failed refresh,
or a non-ok response each throw. `refreshOutcome` is what the refresh round
trip would yield, `requestOk`/`requestStatus` describe the response to the
actual request. -/
def fetchWithAuth (now : Int) (refreshOutcome : RefreshOutcome)
    (requestOk : Bool) (requestStatus : Nat) (s : AuthState) : FetchResult :=
  if isTokenNearlyExpired now s.tokenInfo then
    if s.rememberMe then
      match refreshTokenStep now refreshOutcome s with
      | (s', true) =>
          -- tokenInfo is re-read from storage; present after a successful refresh
          match s'.tokenInfo with
          | none => ⟨s', [.refreshCall], some "Não autenticado."⟩
          | some _ => issueRequest requestOk requestStatus s' [.refreshCall]
      | (s', false) =>
          ⟨s', [.refreshCall],
            some "Sua sessão expirou. Por favor, faça login novamente."⟩
    else
      ⟨clearedAuth, [], some "Sessão expirada. Por favor, faça login novamente."⟩
  else
    match s.tokenInfo with
    | none => ⟨s, [], some "Não autenticado."⟩
    | some _ => issueRequest requestOk requestStatus s []

/-! ### `mapApiStatusToEnum` (`services/api.ts`)

The JS normalization is `apiStatus.trim().toUpperCase().replace(/ /g, '_')`.
`trim`/`toUpperCase` are modelled character-wise on `String.data`
(the status strings are basic-latin, where `Char.toUpper` agrees with JS). -/

/-- JS `String.prototype.trim` on a character list: drop whitespace from both
ends. -/
def trimChars (cs : List Char) : List Char :=
  ((cs.dropWhile Char.isWhitespace).reverse.dropWhile Char.isWhitespace).reverse

/-- JS `.trim()`. -/
def jsTrim (s : String) : String := String.mk (trimChars s.data)

/-- JS `.toUpperCase()` (basic latin). -/
def jsToUpper (s : String) : String := String.mk (s.data.map Char.toUpper)

/-- JS `.toLowerCase()` (basic latin), used to state case-invariance. -/
def jsToLower (s : String) : String := String.mk (s.data.map Char.toLower)

/-- One character of `.replace(/ /g, '_')`. -/
def underscoreChar (c : Char) : Char := if c = ' ' then '_' else c

/-- JS `.replace(/ /g, '_')`. -/
def jsUnderscoreSpaces (s : String) : String := String.mk (s.data.map underscoreChar)

/-- The full normalization pipeline of `mapApiStatusToEnum`. -/
def normalizeStatus (s : String) : String := jsUnderscoreSpaces (jsToUpper (jsTrim s))

/-- The `switch (upperStatus)` of `mapApiStatusToEnum`, including the default
branch that warns and falls back to `PLC`. -/
def statusOfNormalized (u : String) : OrderStatus :=
  if u = "PLACED" ∨ u = "PLC" then .PLC
  else if u = "CONFIRMED" ∨ u = "COM" then .COM
  else if u = "SEPARATION_STARTED" ∨ u = "SPS" then .SPS
  else if u = "SEPARATION_ENDED" ∨ u = "SPE" ∨ u = "RFI" then .SPE
  else if u = "DISPATCHED" ∨ u = "DSP" then .DSP
  else if u = "ARRIVED_AT_DESTINATION" ∨ u = "OPA" then .OPA
  else if u = "CONCLUDED" ∨ u = "CON" then .CON
  else if u = "DELIVERED_BY_IFOOD" ∨ u = "DDCS" then .DDCS
  else if u = "CANCELLED" ∨ u = "CANCELED" ∨ u = "CAN" then .CAN
  else if u = "CANCELLATION_REQUESTED" ∨ u = "CAR" then .CAR
  else if u = "CANCELLATION_IN_PROGRESS" then .CANCELLATION_REQUESTED
  else .PLC

/-- `mapApiStatusToEnum(apiStatus?)`: `none` models an absent argument, and
the empty string is falsy in JS, so both short-circuit to `PLC`. -/
def mapApiStatusToEnum : Option String → OrderStatus
  | none => .PLC
  | some s => if s = "" then .PLC else statusOfNormalized (normalizeStatus s)

/-! ### `api.updateOrderStatus` (`services/api.ts`) -/

/-- The part of `updateOrderStatus` that runs before any HTTP request: the
`localId` guard and the `switch (nextStatus)` selecting the endpoint; the
`default` branch throws "ação não implementada". -/
def updateOrderStatusEndpoint (order : Order) (nextStatus : OrderStatus) :
    Except String String :=
  if order.localId = "" ∨ order.localId = "missing-local-id" then
    .error "Este pedido não possui um ID local e não pode ser atualizado."
  else
    match nextStatus with
    | .COM => .ok ("/erp/orders/" ++ order.localId ++ "/confirm")
    | .SPS => .ok ("/erp/orders/" ++ order.localId ++ "/start-separation")
    | .SPE => .ok ("/erp/orders/" ++ order.localId ++ "/end-separation")
    | .DSP =>
        .ok (if order.deliveryProvider = .IFOOD then
              "/erp/orders/" ++ order.localId ++ "/dispatch-to-ifood"
            else
              "/erp/orders/" ++ order.localId ++ "/dispatch")
    | .CON => .ok ("/erp/orders/" ++ order.localId ++ "/conclude-order")
    | .CAN => .ok ("/erp/orders/" ++ order.localId ++ "/cancel-order")
    | _ => .error "Ação para o status não implementada."

/-- `true` exactly when `updateOrderStatusEndpoint` proceeds to the HTTP
request. -/
def endpointSelected (order : Order) (nextStatus : OrderStatus) : Bool :=
  match updateOrderStatusEndpoint order nextStatus with
  | .ok _ => true
  | .error _ => false

/-- The `nextStatus` values handled by the `switch` in `updateOrderStatus`. -/
def handledNextStatuses : List OrderStatus := [.COM, .SPS, .SPE, .DSP, .CON, .CAN]

/-! ### `api.syncProducts` (`services/api.ts`) -/

/-- The `ProductToAdd` DTO from `src/types.ts`. -/
structure ProductToAdd where
  barcode : String
  name : String
  price : Int
  promotionPrice : Option Int
  stock : Int
  status : String -- 'active' | 'inactive'
deriving DecidableEq, Repr

/-- One element of the `items` payload built by `sendBatch`. -/
structure SyncItem where
  barcode : String
  name : String
  value : Int
  stock : Int
  status : Bool
deriving DecidableEq, Repr

/-- The per-product payload mapping of `sendBatch` (`status: p.status ===
'active'`). -/
def toSyncItem (p : ProductToAdd) : SyncItem :=
  ⟨p.barcode, p.name, p.price, p.stock, p.status == "active"⟩

/-- `BATCH_SIZE` in `syncProducts`. -/
def SYNC_BATCH_SIZE : Nat := 500

/-- Split a list into consecutive slices of `SYNC_BATCH_SIZE`, mirroring the
`for (i += BATCH_SIZE) slice(i, i + BATCH_SIZE)` loop. -/
def chunkList : List α → List (List α)
  | [] => []
  | a :: l =>
      (a :: l).take SYNC_BATCH_SIZE :: chunkList ((a :: l).drop SYNC_BATCH_SIZE)
termination_by l => l.length
decreasing_by simp [SYNC_BATCH_SIZE]; omega

/-- One `sendBatch` call: the endpoint posted to and the batch sent. -/
structure SyncRequest where
  endpoint : String
  batch : List ProductToAdd
deriving DecidableEq, Repr

/-- The sequence of `sendBatch` calls `syncProducts(products, isReset)`
makes, in order: nothing for an empty input; with `isReset` the first slice
goes to `/erp/sync-with-reset` and the remaining slices to
`/erp/products/sync`; otherwise every slice goes to `/erp/products/sync`. -/
def syncRequests (products : List ProductToAdd) (isReset : Bool) :
    List SyncRequest :=
  if products.isEmpty then []
  else if isReset then
    ⟨"/erp/sync-with-reset", products.take SYNC_BATCH_SIZE⟩ ::
      (chunkList (products.drop SYNC_BATCH_SIZE)).map
        (fun b => ⟨"/erp/products/sync", b⟩)
  else
    (chunkList products).map (fun b => ⟨"/erp/products/sync", b⟩)

/-- `Math.round((processed / total) * 100)` for `0 ≤ processed ≤ total`,
with the real-number rounding computed exactly on rationals (round half
away from zero). -/
def jsRound100 (processed total : Nat) : Nat :=
  (200 * processed + total) / (2 * total)

/-- Running `processedCount` totals after each batch. -/
def cumulativeCounts : List (List α) → Nat → List Nat
  | [], _ => []
  | b :: bs, acc => (acc + b.length) :: cumulativeCounts bs (acc + b.length)

/-- The `onProgress` reports of `syncProducts`, in order: `[100]` directly
for an empty input, otherwise one rounded percentage per batch. -/
def syncProgressReports (products : List ProductToAdd) (isReset : Bool) :
    List Nat :=
  if products.isEmpty then [100]
  else
    (cumulativeCounts ((syncRequests products isReset).map (fun r => r.batch)) 0).map
      (fun k => jsRound100 k products.length)

/-- A concrete fetched list (a status change for id "1" and a brand new id
"3") used to evaluate the claims on explicit inputs. -/
def sampleFetched : List Order :=
  [⟨"1", "l1", "A", 10, .COM, .IFOOD⟩, ⟨"3", "l3", "C", 30, .PLC, .MERCHANT⟩]

/-- A concrete current list (ids "1" and "2") used to evaluate the claims on
explicit inputs. -/
def sampleCurrent : List Order :=
  [⟨"1", "l1", "A", 10, .PLC, .IFOOD⟩, ⟨"2", "l2", "B", 20, .PLC, .TAKEOUT⟩]

/-- A concrete `OrderList` state (one stored order, a stored pagination with
`perPage = 10`, no error) used to evaluate the claims on explicit inputs. -/
def samplePollState : OrdersState :=
  ⟨[⟨"1", "l1", "A", 10, .PLC, .IFOOD⟩], some ⟨1, 10, 5, 1⟩, [], none, none, false⟩

/-! ## Supporting lemmas -/

/-- The value a successful `fetchedOrdersMap.get(c.id)` returns really
carries the id that was looked up. -/
theorem fetchedLookup_id {fetched : List Order} {i : String} {f : Order}
    (h : fetchedLookup fetched i = some f) : f.id = i := by
  have hmem : f ∈ fetched.filter (fun o => o.id == i) :=
    List.mem_of_getLast?_eq_some h
  simpa using (List.mem_filter.mp hmem).2

/-- `applyFetched` never changes the id of a current order. -/
theorem applyFetched_id (fetched : List Order) (c : Order) :
    (applyFetched fetched c).id = c.id := by
  unfold applyFetched
  cases h : fetchedLookup fetched c.id with
  | none => rfl
  | some f =>
      by_cases hs : f.status ≠ c.status
      · simp [hs, fetchedLookup_id h]
      · simp [hs]

/-- If no current order took the "status changed" branch, the update map of
the `setOrders` updater is the identity. -/
theorem map_applyFetched_of_no_change {fetched current : List Order}
    (h : changedOrders fetched current = []) :
    current.map (applyFetched fetched) = current := by
  have hall := List.filterMap_eq_nil_iff.mp h
  have : ∀ c ∈ current, applyFetched fetched c = c := by
    intro c hc
    have hc' := hall c hc
    unfold applyFetched
    cases hl : fetchedLookup fetched c.id with
    | none => rfl
    | some f =>
        rw [hl] at hc'
        by_cases hs : f.status ≠ c.status
        · simp [hs] at hc'
        · simp [hs]
  calc current.map (applyFetched fetched) = current.map id :=
        List.map_congr_left this
    _ = current := List.map_id current

/-- The `setOrders` updater always computes "new orders prepended to the
pointwise-updated current orders"; the `hasChanged` short-circuit only
avoids allocating an identical array. -/
theorem reconcileOrders_eq (fetched current : List Order) :
    reconcileOrders fetched current =
      newOrdersOf fetched current ++ current.map (applyFetched fetched) := by
  unfold reconcileOrders
  by_cases h : pollHasChanged fetched current
  · simp [h]
  · have h' : pollHasChanged fetched current = false := by
      simpa using h
    unfold pollHasChanged at h'
    have hch : changedOrders fetched current = [] := by
      rcases Bool.or_eq_false_iff.mp h' with ⟨h1, _⟩
      simpa using h1
    have hnew : newOrdersOf fetched current = [] := by
      rcases Bool.or_eq_false_iff.mp h' with ⟨_, h2⟩
      simpa using h2
    simp [h', hnew, map_applyFetched_of_no_change hch]

/-- Membership characterization of the new-order filter. -/
theorem mem_newOrdersOf {fetched current : List Order} {o : Order} :
    o ∈ newOrdersOf fetched current ↔
      o ∈ fetched ∧ ∀ c ∈ current, c.id ≠ o.id := by
  unfold newOrdersOf
  simp [List.mem_filter, List.any_eq_true]

/-- If every fetched order agrees in status with every current order
carrying its id, no current order takes the "status changed" branch. -/
theorem changedOrders_eq_nil {fetched current : List Order}
    (h : ∀ o ∈ fetched, ∀ c ∈ current, c.id = o.id → o.status = c.status) :
    changedOrders fetched current = [] := by
  unfold changedOrders
  rw [List.filterMap_eq_nil_iff]
  intro c hc
  cases hl : fetchedLookup fetched c.id with
  | none => rfl
  | some f =>
      have hfid : f.id = c.id := fetchedLookup_id hl
      have hfmem : f ∈ fetched := by
        have hfil : f ∈ fetched.filter (fun o => o.id == c.id) :=
          List.mem_of_getLast?_eq_some hl
        exact (List.mem_filter.mp hfil).1
      have hstat := h f hfmem c hc hfid.symm
      simp [hstat]

/-- If every fetched id is already present, the new-order filter is empty. -/
theorem newOrdersOf_eq_nil {fetched current : List Order}
    (h : ∀ o ∈ fetched, ∃ c ∈ current, c.id = o.id) :
    newOrdersOf fetched current = [] := by
  unfold newOrdersOf
  rw [List.filter_eq_nil_iff]
  intro o ho
  rcases h o ho with ⟨c, hc, hcid⟩
  simp only [Bool.not_eq_true', Bool.not_eq_false, List.any_eq_true]
  exact ⟨c, hc, by simp [hcid]⟩

/-- A visible poll tick whose fetched orders bring no id or status change
updates only the pagination and plays no sound. -/
theorem pollTick_no_change (fetched : List Order) (pag : Pagination)
    (s : OrdersState) (m a : Bool)
    (hid : ∀ o ∈ fetched, ∃ c ∈ s.orders, c.id = o.id)
    (hst : ∀ o ∈ fetched, ∀ c ∈ s.orders, c.id = o.id → o.status = c.status) :
    pollTick false m a (some (fetched, pag)) s =
      ({ s with pagination := updatePollPagination pag s.pagination },
        ⟨true, false⟩) := by
  have hch := changedOrders_eq_nil hst
  have hnw := newOrdersOf_eq_nil hid
  unfold pollTick
  simp [hch, hnw, reconcileOrders, pollHasChanged]

/-- The pre-request guard of `updateOrderStatus` succeeds exactly when the
`localId` is usable and the target status has an endpoint. -/
theorem endpointSelected_iff (o : Order) (st : OrderStatus) :
    endpointSelected o st = true ↔
      ¬(o.localId = "" ∨ o.localId = "missing-local-id") ∧
        st ∈ handledNextStatuses := by
  by_cases hl : o.localId = "" ∨ o.localId = "missing-local-id"
  · simp [endpointSelected, updateOrderStatusEndpoint, hl]
  · cases st <;>
      simp [endpointSelected, updateOrderStatusEndpoint, hl, handledNextStatuses]

/-- Every action `NEXT_ACTION_MAP` produces targets a handled status. -/
theorem nextActionMap_handled (s : OrderStatus) (a : NextAction)
    (h : NEXT_ACTION_MAP s = some a) : a.nextStatus ∈ handledNextStatuses := by
  cases s <;> simp [NEXT_ACTION_MAP] at h <;>
    simp [← h, handledNextStatuses]

/-- Concatenating the slices produced by `chunkList` recovers the input. -/
theorem chunkList_flatten (l : List α) : (chunkList l).flatten = l := by
  induction l using chunkList.induct with
  | case1 => simp [chunkList]
  | case2 a l ih => rw [chunkList, List.flatten_cons, ih, List.take_append_drop]

/-- Every slice produced by `chunkList` is nonempty and within the batch
size. -/
theorem chunkList_batch_bounds {l b : List α} (hb : b ∈ chunkList l) :
    b.length ≤ SYNC_BATCH_SIZE ∧ b ≠ [] := by
  induction l using chunkList.induct with
  | case1 => simp [chunkList] at hb
  | case2 a l ih =>
      rw [chunkList] at hb
      rcases List.mem_cons.mp hb with h | h
      · subst h
        refine ⟨by simp, by simp [List.take_eq_nil_iff, SYNC_BATCH_SIZE]⟩
      · exact ih h

/-- `Char.ofNat` on a basic-plane code point keeps its value. -/
theorem char_toNat_ofNat {n : Nat} (h : n < 55296) : (Char.ofNat n).toNat = n := by
  have hv : n.isValidChar := Or.inl h
  rw [Char.ofNat, dif_pos hv]
  simp [Char.ofNatAux, Char.toNat, UInt32.toNat]

/-- Characters are equal iff their code points are. -/
theorem char_eq_iff_toNat {c d : Char} : c = d ↔ c.toNat = d.toNat := by
  constructor
  · intro h; rw [h]
  · intro h
    exact Char.ext (UInt32.toNat.inj h)

/-- `Char.isWhitespace` in terms of code points. -/
theorem ws_iff_toNat {c : Char} : c.isWhitespace = true ↔
    (c.toNat = 32 ∨ c.toNat = 9 ∨ c.toNat = 13 ∨ c.toNat = 10) := by
  unfold Char.isWhitespace
  simp only [Bool.or_eq_true, decide_eq_true_eq]
  rw [char_eq_iff_toNat, char_eq_iff_toNat, char_eq_iff_toNat, char_eq_iff_toNat]
  have h1 : (' ').toNat = 32 := rfl
  have h2 : ('\t').toNat = 9 := rfl
  have h3 : ('\r').toNat = 13 := rfl
  have h4 : ('\n').toNat = 10 := rfl
  rw [h1, h2, h3, h4]
  tauto

/-- `Char.toUpper` on a basic-latin lower-case letter. -/
theorem toUpper_eq_of_lower {c : Char} (h : 97 ≤ c.toNat ∧ c.toNat ≤ 122) :
    c.toUpper = Char.ofNat (c.toNat - 32) := by
  unfold Char.toUpper
  rw [if_pos h]

/-- `Char.toUpper` outside the lower-case letters. -/
theorem toUpper_eq_self {c : Char} (h : ¬(97 ≤ c.toNat ∧ c.toNat ≤ 122)) :
    c.toUpper = c := by
  unfold Char.toUpper
  rw [if_neg h]

/-- `Char.toLower` on a basic-latin upper-case letter. -/
theorem toLower_eq_of_upper {c : Char} (h : 65 ≤ c.toNat ∧ c.toNat ≤ 90) :
    c.toLower = Char.ofNat (c.toNat + 32) := by
  unfold Char.toLower
  rw [if_pos h]

/-- `Char.toLower` outside the upper-case letters. -/
theorem toLower_eq_self {c : Char} (h : ¬(65 ≤ c.toNat ∧ c.toNat ≤ 90)) :
    c.toLower = c := by
  unfold Char.toLower
  rw [if_neg h]

/-- Upper-casing does not create or destroy whitespace. -/
theorem ws_toUpper (c : Char) : c.toUpper.isWhitespace = c.isWhitespace := by
  by_cases h : 97 ≤ c.toNat ∧ c.toNat ≤ 122
  · have h1 := toUpper_eq_of_lower h
    have h2 : (Char.ofNat (c.toNat - 32)).toNat = c.toNat - 32 :=
      char_toNat_ofNat (by omega)
    have hl : c.toUpper.isWhitespace = false := by
      rw [Bool.eq_false_iff]
      intro hw
      rw [h1] at hw
      rcases ws_iff_toNat.mp hw with h' | h' | h' | h' <;> rw [h2] at h' <;> omega
    have hr : c.isWhitespace = false := by
      rw [Bool.eq_false_iff]
      intro hw
      rcases ws_iff_toNat.mp hw with h' | h' | h' | h' <;> omega
    rw [hl, hr]
  · rw [toUpper_eq_self h]

/-- Upper-casing is idempotent. -/
theorem toUpper_toUpper (c : Char) : c.toUpper.toUpper = c.toUpper := by
  by_cases h : 97 ≤ c.toNat ∧ c.toNat ≤ 122
  · have h1 := toUpper_eq_of_lower h
    have h2 : (Char.ofNat (c.toNat - 32)).toNat = c.toNat - 32 :=
      char_toNat_ofNat (by omega)
    rw [h1, toUpper_eq_self (by rw [h2]; omega)]
  · rw [toUpper_eq_self h, toUpper_eq_self h]

/-- Upper-casing after lower-casing equals plain upper-casing. -/
theorem toUpper_toLower (c : Char) : c.toLower.toUpper = c.toUpper := by
  by_cases h : 65 ≤ c.toNat ∧ c.toNat ≤ 90
  · have h1 := toLower_eq_of_upper h
    have h2 : (Char.ofNat (c.toNat + 32)).toNat = c.toNat + 32 :=
      char_toNat_ofNat (by omega)
    rw [h1, toUpper_eq_of_lower (by rw [h2]; omega), h2]
    have h3 : c.toNat + 32 - 32 = c.toNat := by omega
    rw [h3, Char.ofNat_toNat, toUpper_eq_self (by omega)]
  · rw [toLower_eq_self h]

/-- Lower-casing does not create or destroy whitespace. -/
theorem ws_toLower (c : Char) : c.toLower.isWhitespace = c.isWhitespace := by
  by_cases h : 65 ≤ c.toNat ∧ c.toNat ≤ 90
  · have h1 := toLower_eq_of_upper h
    have h2 : (Char.ofNat (c.toNat + 32)).toNat = c.toNat + 32 :=
      char_toNat_ofNat (by omega)
    have hl : c.toLower.isWhitespace = false := by
      rw [Bool.eq_false_iff]
      intro hw
      rw [h1] at hw
      rcases ws_iff_toNat.mp hw with h' | h' | h' | h' <;> rw [h2] at h' <;> omega
    have hr : c.isWhitespace = false := by
      rw [Bool.eq_false_iff]
      intro hw
      rcases ws_iff_toNat.mp hw with h' | h' | h' | h' <;> omega
    rw [hl, hr]
  · rw [toLower_eq_self h]

/-- The space-to-underscore substitution keeps non-whitespace characters
non-whitespace. -/
theorem ws_underscoreChar {c : Char} (h : c.isWhitespace = false) :
    (underscoreChar c).isWhitespace = false := by
  unfold underscoreChar
  by_cases hc : c = ' '
  · subst hc; simp at h
  · rw [if_neg hc]; exact h

/-- Substituting before upper-casing collapses: only the space character is
affected by the substitution, and upper-casing fixes both space and
underscore. -/
theorem usc_toUpper_usc (c : Char) :
    underscoreChar (underscoreChar c).toUpper = underscoreChar c.toUpper := by
  by_cases hc : c = ' '
  · subst hc; decide
  · unfold underscoreChar
    rw [if_neg hc]

/-- `dropWhile` is the identity when the head fails the predicate. -/
theorem dropWhile_head_false {p : α → Bool} {l : List α}
    (h : ∀ x, l.head? = some x → p x = false) : l.dropWhile p = l := by
  cases l with
  | nil => rfl
  | cons a t =>
      rw [List.dropWhile_cons, h a rfl]
      simp

/-- The head surviving a `dropWhile` fails the predicate. -/
theorem head?_dropWhile_false {p : α → Bool} {l : List α} {x : α}
    (h : (l.dropWhile p).head? = some x) : p x = false := by
  have hmatch := List.head?_dropWhile_not p l
  rw [h] at hmatch
  exact hmatch

/-- `dropWhile` keeps the last element when it keeps anything at all. -/
theorem getLast?_dropWhile_of_ne_nil {p : α → Bool} {l : List α}
    (h : l.dropWhile p ≠ []) : (l.dropWhile p).getLast? = l.getLast? := by
  induction l with
  | nil => simp at h
  | cons a t ih =>
      rw [List.dropWhile_cons] at h ⊢
      by_cases hpa : p a = true
      · rw [if_pos hpa] at h ⊢
        cases t with
        | nil => simp at h
        | cons b t' =>
            rw [List.getLast?_cons_cons]
            exact ih h
      · rw [if_neg hpa]

/-- A trimmed list starts with a non-whitespace character. -/
theorem trimChars_head {cs : List Char} {x : Char}
    (h : (trimChars cs).head? = some x) : x.isWhitespace = false := by
  unfold trimChars at h
  rw [List.head?_reverse] at h
  have hne :
      (cs.dropWhile Char.isWhitespace).reverse.dropWhile Char.isWhitespace ≠ [] := by
    intro he
    rw [he] at h
    simp at h
  rw [getLast?_dropWhile_of_ne_nil hne, List.getLast?_reverse] at h
  exact head?_dropWhile_false h

/-- A trimmed list ends with a non-whitespace character. -/
theorem trimChars_last {cs : List Char} {x : Char}
    (h : (trimChars cs).getLast? = some x) : x.isWhitespace = false := by
  unfold trimChars at h
  rw [List.getLast?_reverse] at h
  exact head?_dropWhile_false h

/-- Trimming fixes a list whose two ends are non-whitespace. -/
theorem trimChars_eq_self {cs : List Char}
    (hh : ∀ x, cs.head? = some x → x.isWhitespace = false)
    (hl : ∀ x, cs.getLast? = some x → x.isWhitespace = false) :
    trimChars cs = cs := by
  unfold trimChars
  rw [dropWhile_head_false hh]
  rw [dropWhile_head_false (fun x hx => hl x (by rwa [List.head?_reverse] at hx))]
  exact List.reverse_reverse cs

/-- Trimming is idempotent. -/
theorem trimChars_idem (cs : List Char) : trimChars (trimChars cs) = trimChars cs :=
  trimChars_eq_self (fun _ h => trimChars_head h) (fun _ h => trimChars_last h)

/-- Trimming commutes with a whitespace-preserving character map. -/
theorem trimChars_map {f : Char → Char}
    (hf : ∀ c, (f c).isWhitespace = c.isWhitespace) (cs : List Char) :
    trimChars (cs.map f) = (trimChars cs).map f := by
  have hcomp : (Char.isWhitespace ∘ f) = Char.isWhitespace := funext hf
  unfold trimChars
  rw [List.dropWhile_map, hcomp, ← List.map_reverse, List.dropWhile_map, hcomp,
    ← List.map_reverse]

/-- `mapApiStatusToEnum` factors through the normalization pipeline (the
empty string hits the falsy guard, but the default branch sends it to `PLC`
as well). -/
theorem mapApiStatus_eq (s : String) :
    mapApiStatusToEnum (some s) = statusOfNormalized (normalizeStatus s) := by
  show (if s = "" then OrderStatus.PLC else statusOfNormalized (normalizeStatus s)) =
    statusOfNormalized (normalizeStatus s)
  by_cases h : s = ""
  · subst h; rw [if_pos rfl]; rfl
  · rw [if_neg h]

/-- The normalization pipeline, on the underlying character list. -/
theorem normalizeStatus_data (s : String) :
    normalizeStatus s =
      String.mk (((trimChars s.data).map Char.toUpper).map underscoreChar) := rfl

/-- Pre-trimming the input does not change its normalization. -/
theorem normalizeStatus_trim (s : String) :
    normalizeStatus (jsTrim s) = normalizeStatus s := by
  rw [normalizeStatus_data, normalizeStatus_data]
  have h : (jsTrim s).data = trimChars s.data := rfl
  rw [h, trimChars_idem]

/-- Pre-upper-casing the input does not change its normalization. -/
theorem normalizeStatus_upper (s : String) :
    normalizeStatus (jsToUpper s) = normalizeStatus s := by
  rw [normalizeStatus_data, normalizeStatus_data]
  have h : (jsToUpper s).data = s.data.map Char.toUpper := rfl
  rw [h, trimChars_map ws_toUpper, List.map_map, List.map_map, List.map_map]
  congr 1
  apply List.map_congr_left
  intro c _
  simp only [Function.comp]
  rw [toUpper_toUpper]

/-- Pre-lower-casing the input does not change its normalization. -/
theorem normalizeStatus_lower (s : String) :
    normalizeStatus (jsToLower s) = normalizeStatus s := by
  rw [normalizeStatus_data, normalizeStatus_data]
  have h : (jsToLower s).data = s.data.map Char.toLower := rfl
  rw [h, trimChars_map ws_toLower, List.map_map, List.map_map, List.map_map]
  congr 1
  apply List.map_congr_left
  intro c _
  simp only [Function.comp]
  rw [toUpper_toLower]

/-- For an input without leading or trailing whitespace, replacing its
spaces by underscores does not change its normalization. -/
theorem normalizeStatus_underscore {s : String} (h : jsTrim s = s) :
    normalizeStatus (jsUnderscoreSpaces s) = normalizeStatus s := by
  have hdata : trimChars s.data = s.data := congrArg String.data h
  rw [normalizeStatus_data, normalizeStatus_data]
  have h1 : (jsUnderscoreSpaces s).data = s.data.map underscoreChar := rfl
  rw [h1, hdata]
  have htr : trimChars (s.data.map underscoreChar) = s.data.map underscoreChar := by
    apply trimChars_eq_self
    · intro x hx
      rw [List.head?_map] at hx
      cases hy : s.data.head? with
      | none => rw [hy] at hx; simp at hx
      | some y =>
          rw [hy] at hx
          have hx2 : some (underscoreChar y) = some x := hx
          cases Option.some.inj hx2
          exact ws_underscoreChar (trimChars_head (x := y) (by rw [hdata, hy]))
    · intro x hx
      rw [List.getLast?_map] at hx
      cases hy : s.data.getLast? with
      | none => rw [hy] at hx; simp at hx
      | some y =>
          rw [hy] at hx
          have hx2 : some (underscoreChar y) = some x := hx
          cases Option.some.inj hx2
          exact ws_underscoreChar (trimChars_last (x := y) (by rw [hdata, hy]))
  rw [htr, List.map_map, List.map_map, List.map_map]
  congr 1
  apply List.map_congr_left
  intro c _
  simp only [Function.comp]
  exact usc_toUpper_usc c

/-! ## Claims -/

/-- C1: the `setOrders` updater of `pollForNewOrders` diffs by order id and
status: the result is exactly the fetched orders with unseen ids prepended
(in fetched order) to the current list updated in place; a current order
whose id the fetched map carries with a different status is replaced by that
fetched order, every other current order is kept unchanged, and no current
order is ever removed (each keeps a representative with its id, even when it
is absent from the fetched list). -/
theorem claim1_poll_reconciliation (fetched current : List Order) :
    reconcileOrders fetched current =
      newOrdersOf fetched current ++ current.map (applyFetched fetched) ∧
    (∀ o, o ∈ newOrdersOf fetched current ↔
      o ∈ fetched ∧ ∀ c ∈ current, c.id ≠ o.id) ∧
    (∀ c ∈ current, ∀ f, fetchedLookup fetched c.id = some f →
      f.status ≠ c.status → applyFetched fetched c = f) ∧
    (∀ c ∈ current,
      (∀ f, fetchedLookup fetched c.id = some f → f.status = c.status) →
      applyFetched fetched c = c) ∧
    (∀ c ∈ current, ∃ r ∈ reconcileOrders fetched current, r.id = c.id) := by
  refine ⟨reconcileOrders_eq fetched current, fun o => mem_newOrdersOf, ?_, ?_, ?_⟩
  · intro c _ f hf hs
    unfold applyFetched
    rw [hf]
    simp [hs]
  · intro c _ hall
    unfold applyFetched
    cases hl : fetchedLookup fetched c.id with
    | none => rfl
    | some f => simp [hall f hl]
  · intro c hc
    refine ⟨applyFetched fetched c, ?_, applyFetched_id fetched c⟩
    rw [reconcileOrders_eq]
    exact List.mem_append_right _ (List.mem_map_of_mem _ hc)

/-- C1 witness: the reconciliation property evaluated on a concrete tick
(one status change, one new order, one untouched order). -/
theorem claim1_poll_reconciliation_witness :
    reconcileOrders sampleFetched sampleCurrent =
      newOrdersOf sampleFetched sampleCurrent ++
        sampleCurrent.map (applyFetched sampleFetched) ∧
    (∀ o, o ∈ newOrdersOf sampleFetched sampleCurrent ↔
      o ∈ sampleFetched ∧ ∀ c ∈ sampleCurrent, c.id ≠ o.id) ∧
    (∀ c ∈ sampleCurrent, ∀ f, fetchedLookup sampleFetched c.id = some f →
      f.status ≠ c.status → applyFetched sampleFetched c = f) ∧
    (∀ c ∈ sampleCurrent,
      (∀ f, fetchedLookup sampleFetched c.id = some f → f.status = c.status) →
      applyFetched sampleFetched c = c) ∧
    (∀ c ∈ sampleCurrent, ∃ r ∈ reconcileOrders sampleFetched sampleCurrent,
      r.id = c.id) :=
  claim1_poll_reconciliation sampleFetched sampleCurrent

/-- C2: `NEXT_ACTION_MAP` yields at most one next action per status (it is a
function into `Option NextAction`): `PLC ↦ COM`, `COM ↦ SPE`, `SPS ↦ SPE`,
`SPE ↦ DSP`, and the remaining seven statuses map to no action; the
`OrderStatus` enum it is defined over has exactly 11 values. -/
theorem claim2_next_action_map :
    NEXT_ACTION_MAP .PLC = some ⟨"Confirmar", .COM⟩ ∧
    NEXT_ACTION_MAP .COM = some ⟨"Concluir Separação", .SPE⟩ ∧
    NEXT_ACTION_MAP .SPS = some ⟨"Finalizar Separação", .SPE⟩ ∧
    NEXT_ACTION_MAP .SPE = some ⟨"Despachar", .DSP⟩ ∧
    NEXT_ACTION_MAP .DSP = none ∧
    NEXT_ACTION_MAP .OPA = none ∧
    NEXT_ACTION_MAP .CON = none ∧
    NEXT_ACTION_MAP .DDCS = none ∧
    NEXT_ACTION_MAP .CAN = none ∧
    NEXT_ACTION_MAP .CAR = none ∧
    NEXT_ACTION_MAP .CANCELLATION_REQUESTED = none ∧
    Fintype.card OrderStatus = 11 :=
  ⟨rfl, rfl, rfl, rfl, rfl, rfl, rfl, rfl, rfl, rfl, rfl, by decide⟩

/-- C3: the order-list poll runs on a 5000 ms `setInterval`; a tick firing
while `document.hidden` performs no fetch and leaves the whole state (orders
and pagination included) unchanged, while a visible tick always issues the
refetch. -/
theorem claim3_poll_interval_and_hidden (hidden m a : Bool)
    (outcome : Option (List Order × Pagination)) (s : OrdersState)
    (h : hidden = true) :
    pollTick hidden m a outcome s = (s, ⟨false, false⟩) ∧
    POLL_INTERVAL_MS = 5000 ∧
    (∀ outcome2 : Option (List Order × Pagination),
      (pollTick false m a outcome2 s).2.fetchIssued = true) := by
  subst h
  refine ⟨rfl, rfl, ?_⟩
  intro o2
  match o2 with
  | none => rfl
  | some (f, p) => rfl

/-- C3 witness: the hidden-tick no-op evaluated on a concrete state and a
concrete (successful) fetch outcome. -/
theorem claim3_poll_interval_and_hidden_witness :
    pollTick true false true (some (sampleFetched, ⟨1, 10, 5, 1⟩)) samplePollState =
      (samplePollState, ⟨false, false⟩) ∧
    POLL_INTERVAL_MS = 5000 ∧
    (∀ outcome2 : Option (List Order × Pagination),
      (pollTick false false true outcome2 samplePollState).2.fetchIssued = true) :=
  claim3_poll_interval_and_hidden true false true
    (some (sampleFetched, ⟨1, 10, 5, 1⟩)) samplePollState rfl

/-- C4 counterexample: the claimed iff fails when the `<audio>` element is
not mounted. The `OrderList` loading and error early returns render without
the `<audio>` element, so `audioRef.current` can be null on a reachable poll
tick; on such a tick (modelled by `audioReady = false`) the fetched list
contains the brand-new id "3" and notifications are unmuted, yet no sound is
played — and the new id still enters the in-memory state, so the cue is lost
for good. -/
theorem claim4_counterexample :
    (∃ o ∈ sampleFetched, ∀ c ∈ samplePollState.orders, c.id ≠ o.id) ∧
    (pollTick false false false (some (sampleFetched, ⟨1, 10, 5, 1⟩))
      samplePollState).2.soundPlayed = false ∧
    (pollTick false false false (some (sampleFetched, ⟨1, 10, 5, 1⟩))
      samplePollState).1.orders =
        reconcileOrders sampleFetched samplePollState.orders := by
  refine ⟨?_, rfl, rfl⟩
  decide

/-- C4 (amended): on a visible poll tick with a successful fetch, the
notification sound is played iff the fetched list contains an order whose id
is absent from the current in-memory list, notifications are not muted, and
the `<audio>` element is mounted (`audioRef.current` non-null — the
loading/error views render without it); and since new orders are prepended
to the orders state, an id that was new on this tick is no longer new on the
immediately following tick (absent an intervening `fetchOrders` reload,
which replaces the list wholesale), so consecutive ticks never sound for the
same id. -/
theorem claim4_notification_sound (fetched : List Order) (pag : Pagination)
    (s : OrdersState) (m a : Bool) :
    ((pollTick false m a (some (fetched, pag)) s).2.soundPlayed = true ↔
      (∃ o ∈ fetched, ∀ c ∈ s.orders, c.id ≠ o.id) ∧ m = false ∧ a = true) ∧
    (∀ (fetched2 : List Order) (o : Order), o ∈ newOrdersOf fetched s.orders →
      o.id ∉ (newOrdersOf fetched2
        (pollTick false m a (some (fetched, pag)) s).1.orders).map Order.id) := by
  constructor
  · have hred : (pollTick false m a (some (fetched, pag)) s).2.soundPlayed =
        (!(newOrdersOf fetched s.orders).isEmpty && !m && a) := rfl
    rw [hred]
    simp only [Bool.and_eq_true, Bool.not_eq_true',
      List.isEmpty_eq_false_iff_exists_mem]
    constructor
    · rintro ⟨⟨⟨o, ho⟩, hm⟩, ha⟩
      rcases mem_newOrdersOf.mp ho with ⟨hof, hid⟩
      exact ⟨⟨o, hof, hid⟩, hm, ha⟩
    · rintro ⟨⟨o, hof, hid⟩, hm, ha⟩
      exact ⟨⟨⟨o, mem_newOrdersOf.mpr ⟨hof, hid⟩⟩, hm⟩, ha⟩
  · intro fetched2 o ho hmem
    have hords : (pollTick false m a (some (fetched, pag)) s).1.orders =
        reconcileOrders fetched s.orders := rfl
    have homem : o ∈ (pollTick false m a (some (fetched, pag)) s).1.orders := by
      rw [hords, reconcileOrders_eq]
      exact List.mem_append_left _ ho
    rcases List.mem_map.mp hmem with ⟨x, hx, hxid⟩
    rcases mem_newOrdersOf.mp hx with ⟨_, hall⟩
    exact hall o homem (hxid ▸ rfl)

/-- C4 witness: the amended sound criterion and the duplicate suppression
evaluated on the concrete tick (id "3" is new, notifications unmuted, audio
element mounted). -/
theorem claim4_notification_sound_witness :
    ((pollTick false false true (some (sampleFetched, ⟨1, 10, 5, 1⟩))
        samplePollState).2.soundPlayed = true ↔
      (∃ o ∈ sampleFetched, ∀ c ∈ samplePollState.orders, c.id ≠ o.id) ∧
        false = false ∧ true = true) ∧
    (∀ (fetched2 : List Order) (o : Order),
      o ∈ newOrdersOf sampleFetched samplePollState.orders →
      o.id ∉ (newOrdersOf fetched2
        (pollTick false false true (some (sampleFetched, ⟨1, 10, 5, 1⟩))
          samplePollState).1.orders).map Order.id) :=
  claim4_notification_sound sampleFetched ⟨1, 10, 5, 1⟩ samplePollState false true

/-- C6 counterexample: not every failed order-list fetch is surfaced. On a
visible poll tick the fetch is issued and rejects (`outcome = none`), yet the
component's error state stays `none` instead of becoming
"Falha ao carregar pedidos." — `pollForNewOrders` logs the failure silently. -/
theorem claim6_counterexample :
    (pollTick false false true none samplePollState).2.fetchIssued = true ∧
    samplePollState.error = none ∧
    (pollTick false false true none samplePollState).1.error = none := by
  decide

/-- C6 (amended): a failed `api.getOrders` during an explicit `fetchOrders`
load sets the user-facing error "Falha ao carregar pedidos." (leaving the
orders and pagination as they were), while a failed poll refetch is logged
without touching any state — no user-facing error is raised there. -/
theorem claim6_fetch_error_surfaced (s : OrdersState) (m a : Bool) :
    (fetchOrders none s).error = some "Falha ao carregar pedidos." ∧
    (fetchOrders none s).orders = s.orders ∧
    (fetchOrders none s).pagination = s.pagination ∧
    (pollTick false m a none s).1 = s ∧
    (pollTick false m a none s).2 = ⟨true, false⟩ :=
  ⟨rfl, rfl, rfl, rfl, rfl⟩

/-- C6 witness: the amended error-surfacing behavior at the concrete state. -/
theorem claim6_fetch_error_surfaced_witness :
    (fetchOrders none samplePollState).error = some "Falha ao carregar pedidos." ∧
    (fetchOrders none samplePollState).orders = samplePollState.orders ∧
    (fetchOrders none samplePollState).pagination = samplePollState.pagination ∧
    (pollTick false false true none samplePollState).1 = samplePollState ∧
    (pollTick false false true none samplePollState).2 = ⟨true, false⟩ :=
  claim6_fetch_error_surfaced samplePollState false true

/-- C7 counterexample: on a no-change tick (the fetched order equals the
stored one) more than the pagination *total* can change: with stored
pagination `⟨1, 10, 5, 1⟩` and fetched pagination `⟨2, 20, 6, 3⟩` the orders
are untouched, but the resulting pagination is `⟨1, 20, 6, 3⟩` — `perPage`
moved from 10 to 20 and `totalPages` from 1 to 3, because the updater adopts
the whole fetched pagination (minus `currentPage`) whenever the totals
differ. -/
theorem claim7_counterexample :
    (pollTick false false true
      (some ([⟨"1", "l1", "A", 10, .PLC, .IFOOD⟩], ⟨2, 20, 6, 3⟩))
      samplePollState).1.orders = samplePollState.orders ∧
    samplePollState.pagination.map Pagination.perPage = some 10 ∧
    (pollTick false false true
      (some ([⟨"1", "l1", "A", 10, .PLC, .IFOOD⟩], ⟨2, 20, 6, 3⟩))
      samplePollState).1.pagination.map Pagination.perPage = some 20 ∧
    (pollTick false false true
      (some ([⟨"1", "l1", "A", 10, .PLC, .IFOOD⟩], ⟨2, 20, 6, 3⟩))
      samplePollState).1.pagination.map Pagination.totalPages = some 3 := by
  decide

/-- C7 (amended): if a poll tick detects no change — every fetched order's
id is already present and carries an equal status — the `setOrders` updater
returns the original list itself, no sound plays, and the remaining state
fields are untouched except the pagination, which is replaced by the whole
fetched pagination (keeping the previous `currentPage`, hence possibly
changing `perPage`/`totalPages` along with `total`) exactly when the fetched
total differs from the stored one. -/
theorem claim7_no_change_frame (fetched : List Order) (pag : Pagination)
    (s : OrdersState) (m a : Bool)
    (hid : ∀ o ∈ fetched, ∃ c ∈ s.orders, c.id = o.id)
    (hst : ∀ o ∈ fetched, ∀ c ∈ s.orders, c.id = o.id → o.status = c.status) :
    (pollTick false m a (some (fetched, pag)) s).1.orders = s.orders ∧
    (pollTick false m a (some (fetched, pag)) s).1.newOrderIds = s.newOrderIds ∧
    (pollTick false m a (some (fetched, pag)) s).1.justUpdatedOrderId =
      s.justUpdatedOrderId ∧
    (pollTick false m a (some (fetched, pag)) s).1.error = s.error ∧
    (pollTick false m a (some (fetched, pag)) s).1.isLoading = s.isLoading ∧
    (pollTick false m a (some (fetched, pag)) s).2.soundPlayed = false ∧
    (pollTick false m a (some (fetched, pag)) s).1.pagination =
      updatePollPagination pag s.pagination ∧
    (∀ p, s.pagination = some p → p.total = pag.total →
      updatePollPagination pag s.pagination = s.pagination) ∧
    (∀ p, s.pagination = some p → p.total ≠ pag.total →
      updatePollPagination pag s.pagination =
        some { pag with currentPage := p.currentPage }) := by
  rw [pollTick_no_change fetched pag s m a hid hst]
  refine ⟨rfl, rfl, rfl, rfl, rfl, rfl, rfl, ?_, ?_⟩
  · intro p hp ht
    rw [hp]
    simp [updatePollPagination, ht]
  · intro p hp ht
    rw [hp]
    simp [updatePollPagination, ht]

/-- C7 witness: the no-change frame condition evaluated on the concrete
state with a fetched pagination whose total differs. -/
theorem claim7_no_change_frame_witness :
    (∀ o ∈ ([⟨"1", "l1", "A", 10, .PLC, .IFOOD⟩] : List Order),
      ∃ c ∈ samplePollState.orders, c.id = o.id) ∧
    (∀ o ∈ ([⟨"1", "l1", "A", 10, .PLC, .IFOOD⟩] : List Order),
      ∀ c ∈ samplePollState.orders, c.id = o.id → o.status = c.status) ∧
    ((pollTick false false true
        (some ([⟨"1", "l1", "A", 10, .PLC, .IFOOD⟩], ⟨2, 20, 6, 3⟩))
        samplePollState).1.orders = samplePollState.orders ∧
      (pollTick false false true
        (some ([⟨"1", "l1", "A", 10, .PLC, .IFOOD⟩], ⟨2, 20, 6, 3⟩))
        samplePollState).2.soundPlayed = false) := by
  refine ⟨by decide, by decide, ?_⟩
  have h := claim7_no_change_frame [⟨"1", "l1", "A", 10, .PLC, .IFOOD⟩]
    ⟨2, 20, 6, 3⟩ samplePollState false true (by decide) (by decide)
  exact ⟨h.1, h.2.2.2.2.2.1⟩

/-- C5: `fetchWithAuth` performs at most one refresh and at most one
request; the refresh happens (first) exactly when the stored token is past
expiry with remember-me set; an expired token without remember-me and a
failed refresh both throw without ever issuing the request — a failed
refresh ends with the stored token cleared (the user logged out) — and a
non-ok response throws without the request being re-issued. -/
theorem claim5_fetch_with_auth_recovery (now : Int) (ro : RefreshOutcome)
    (requestOk : Bool) (requestStatus : Nat) (s : AuthState) :
    (fetchWithAuth now ro requestOk requestStatus s).events.count .refreshCall ≤ 1 ∧
    (fetchWithAuth now ro requestOk requestStatus s).events.count .httpRequest ≤ 1 ∧
    (isTokenNearlyExpired now s.tokenInfo = true → s.rememberMe = true →
      (fetchWithAuth now ro requestOk requestStatus s).events.head? =
        some .refreshCall) ∧
    ((isTokenNearlyExpired now s.tokenInfo = false ∨ s.rememberMe = false) →
      AuthEvent.refreshCall ∉ (fetchWithAuth now ro requestOk requestStatus s).events) ∧
    (isTokenNearlyExpired now s.tokenInfo = true → s.rememberMe = true →
      (refreshTokenStep now ro s).2 = false →
      (fetchWithAuth now ro requestOk requestStatus s).events = [.refreshCall] ∧
      (fetchWithAuth now ro requestOk requestStatus s).error.isSome = true ∧
      (fetchWithAuth now ro requestOk requestStatus s).state.tokenInfo = none) ∧
    (isTokenNearlyExpired now s.tokenInfo = true → s.rememberMe = false →
      (fetchWithAuth now ro requestOk requestStatus s).events = [] ∧
      (fetchWithAuth now ro requestOk requestStatus s).error.isSome = true ∧
      (fetchWithAuth now ro requestOk requestStatus s).state.tokenInfo = none) ∧
    (requestOk = false →
      (fetchWithAuth now ro requestOk requestStatus s).error.isSome = true) := by
  rcases s with ⟨ti, rm⟩
  cases hexp : isTokenNearlyExpired now ti
  · cases ti with
    | none => simp [isTokenNearlyExpired] at hexp
    | some t =>
        cases requestOk <;>
          simp [fetchWithAuth, hexp, issueRequest, List.count_cons]
  · cases rm
    · simp [fetchWithAuth, hexp, clearedAuth]
    · cases ti with
      | none =>
          cases ro <;> simp [fetchWithAuth, hexp, refreshTokenStep, clearedAuth]
      | some t =>
          cases ro with
          | httpError => simp [fetchWithAuth, hexp, refreshTokenStep, clearedAuth]
          | invalidBody => simp [fetchWithAuth, hexp, refreshTokenStep, clearedAuth]
          | ok tok exp =>
              cases requestOk <;>
                simp [fetchWithAuth, hexp, refreshTokenStep, issueRequest,
                  storedTokenInfo, List.count_cons]

/-- C5 witness: a token expired at 0 while the clock reads 1000, remember-me
set, and a refresh round trip that fails: only the refresh call happens, the
original request is never issued, the call throws, and the stored token is
cleared. -/
theorem claim5_fetch_with_auth_recovery_witness :
    (fetchWithAuth 1000 .httpError false 500 ⟨some ⟨"tok", 0⟩, true⟩).events =
      [.refreshCall] ∧
    (fetchWithAuth 1000 .httpError false 500 ⟨some ⟨"tok", 0⟩, true⟩).error.isSome =
      true ∧
    (fetchWithAuth 1000 .httpError false 500 ⟨some ⟨"tok", 0⟩, true⟩).state.tokenInfo =
      none :=
  (claim5_fetch_with_auth_recovery 1000 .httpError false 500
    ⟨some ⟨"tok", 0⟩, true⟩).2.2.2.2.1 (by decide) rfl (by decide)

/-- C9: `updateOrderStatus` throws before any HTTP request exactly when the
order's `localId` is empty or `"missing-local-id"`, or when `nextStatus` is
outside `{COM, SPS, SPE, DSP, CON, CAN}`; every `nextStatus` produced by
`NEXT_ACTION_MAP` lies in that handled set, so the "action not implemented"
default branch is unreachable for transitions initiated through the
next-action map. -/
theorem claim9_update_status_guard (o : Order) (st : OrderStatus) :
    (endpointSelected o st = true ↔
      ¬(o.localId = "" ∨ o.localId = "missing-local-id") ∧
        st ∈ handledNextStatuses) ∧
    (∀ s a, NEXT_ACTION_MAP s = some a → a.nextStatus ∈ handledNextStatuses) ∧
    (∀ s a, NEXT_ACTION_MAP s = some a →
      ¬(o.localId = "" ∨ o.localId = "missing-local-id") →
      endpointSelected o a.nextStatus = true) := by
  refine ⟨endpointSelected_iff o st, nextActionMap_handled, ?_⟩
  intro s a h hl
  exact (endpointSelected_iff o a.nextStatus).mpr ⟨hl, nextActionMap_handled s a h⟩

/-- C9 witness: the guard evaluated on a concrete order with a usable
`localId` and the `PLC → COM` transition taken from the map. -/
theorem claim9_update_status_guard_witness :
    (endpointSelected ⟨"1", "l1", "A", 10, .PLC, .IFOOD⟩ .COM = true ↔
      ¬((⟨"1", "l1", "A", 10, .PLC, .IFOOD⟩ : Order).localId = "" ∨
          (⟨"1", "l1", "A", 10, .PLC, .IFOOD⟩ : Order).localId = "missing-local-id") ∧
        OrderStatus.COM ∈ handledNextStatuses) ∧
    (∀ s a, NEXT_ACTION_MAP s = some a → a.nextStatus ∈ handledNextStatuses) ∧
    (∀ s a, NEXT_ACTION_MAP s = some a →
      ¬((⟨"1", "l1", "A", 10, .PLC, .IFOOD⟩ : Order).localId = "" ∨
          (⟨"1", "l1", "A", 10, .PLC, .IFOOD⟩ : Order).localId = "missing-local-id") →
      endpointSelected ⟨"1", "l1", "A", 10, .PLC, .IFOOD⟩ a.nextStatus = true) :=
  claim9_update_status_guard ⟨"1", "l1", "A", 10, .PLC, .IFOOD⟩ .COM

/-- C10: `syncProducts` partitions its input into consecutive batches of at
most 500 (flattening the sent batches, in order, recovers exactly the
input); with `isReset` the first batch is posted to `/erp/sync-with-reset`
and every later batch to `/erp/products/sync`, without `isReset` every batch
goes to `/erp/products/sync`; and an empty input sends no request and
reports progress 100 directly. -/
theorem claim10_sync_batching (products : List ProductToAdd) (isReset : Bool) :
    (products = [] → syncRequests products isReset = [] ∧
      syncProgressReports products isReset = [100]) ∧
    ((syncRequests products isReset).map (fun r => r.batch)).flatten = products ∧
    (∀ r ∈ syncRequests products isReset,
      r.batch.length ≤ SYNC_BATCH_SIZE ∧ r.batch ≠ []) ∧
    (isReset = true → products ≠ [] →
      (syncRequests products isReset).head?.map (fun r => r.endpoint) =
        some "/erp/sync-with-reset" ∧
      ∀ r ∈ (syncRequests products isReset).tail,
        r.endpoint = "/erp/products/sync") ∧
    (isReset = false →
      ∀ r ∈ syncRequests products isReset, r.endpoint = "/erp/products/sync") := by
  by_cases hemp : products = []
  · subst hemp
    simp [syncRequests, syncProgressReports]
  · have hne : products.isEmpty = false := by simpa using hemp
    cases isReset
    · refine ⟨fun h => absurd h hemp, ?_, ?_, ?_, ?_⟩
      · simp only [syncRequests, hne, Bool.false_eq_true, if_false,
          List.map_map]
        have hcomp : ((fun r : SyncRequest => r.batch) ∘
            fun b => SyncRequest.mk "/erp/products/sync" b) = id := rfl
        rw [hcomp, List.map_id, chunkList_flatten]
      · intro r hr
        simp only [syncRequests, hne, Bool.false_eq_true, if_false,
          List.mem_map] at hr
        rcases hr with ⟨b, hb, rfl⟩
        exact chunkList_batch_bounds hb
      · intro h
        exact absurd h (by simp)
      · intro _ r hr
        simp only [syncRequests, hne, Bool.false_eq_true, if_false,
          List.mem_map] at hr
        rcases hr with ⟨b, _, rfl⟩
        rfl
    · refine ⟨fun h => absurd h hemp, ?_, ?_, ?_, ?_⟩
      · simp only [syncRequests, hne, if_true, if_false, Bool.false_eq_true,
          List.map_cons, List.map_map, List.flatten_cons]
        have hcomp : ((fun r : SyncRequest => r.batch) ∘
            fun b => SyncRequest.mk "/erp/products/sync" b) = id := rfl
        rw [hcomp, List.map_id, chunkList_flatten, List.take_append_drop]
      · intro r hr
        simp only [syncRequests, hne, if_true, if_false, Bool.false_eq_true,
          List.mem_cons, List.mem_map] at hr
        rcases hr with rfl | ⟨b, hb, rfl⟩
        · refine ⟨by simp, ?_⟩
          simp [List.take_eq_nil_iff, SYNC_BATCH_SIZE, hemp]
        · exact chunkList_batch_bounds hb
      · intro _ _
        constructor
        · simp [syncRequests, hne]
        · intro r hr
          simp only [syncRequests, hne, if_true, if_false, Bool.false_eq_true,
            List.tail_cons, List.mem_map] at hr
          rcases hr with ⟨b, _, rfl⟩
          rfl
      · intro h
        exact absurd h (by simp)

/-- C10 witness: the batching property evaluated on a concrete two-product
input with `isReset` set. -/
theorem claim10_sync_batching_witness :
    (([⟨"789", "P1", 5, none, 3, "active"⟩, ⟨"790", "P2", 7, none, 1, "inactive"⟩] :
        List ProductToAdd) = [] →
      syncRequests [⟨"789", "P1", 5, none, 3, "active"⟩,
        ⟨"790", "P2", 7, none, 1, "inactive"⟩] true = [] ∧
      syncProgressReports [⟨"789", "P1", 5, none, 3, "active"⟩,
        ⟨"790", "P2", 7, none, 1, "inactive"⟩] true = [100]) ∧
    ((syncRequests [⟨"789", "P1", 5, none, 3, "active"⟩,
        ⟨"790", "P2", 7, none, 1, "inactive"⟩] true).map
      (fun r => r.batch)).flatten =
      [⟨"789", "P1", 5, none, 3, "active"⟩, ⟨"790", "P2", 7, none, 1, "inactive"⟩] ∧
    (∀ r ∈ syncRequests [⟨"789", "P1", 5, none, 3, "active"⟩,
        ⟨"790", "P2", 7, none, 1, "inactive"⟩] true,
      r.batch.length ≤ SYNC_BATCH_SIZE ∧ r.batch ≠ []) ∧
    (true = true →
      ([⟨"789", "P1", 5, none, 3, "active"⟩, ⟨"790", "P2", 7, none, 1, "inactive"⟩] :
        List ProductToAdd) ≠ [] →
      (syncRequests [⟨"789", "P1", 5, none, 3, "active"⟩,
        ⟨"790", "P2", 7, none, 1, "inactive"⟩] true).head?.map
          (fun r => r.endpoint) = some "/erp/sync-with-reset" ∧
      ∀ r ∈ (syncRequests [⟨"789", "P1", 5, none, 3, "active"⟩,
        ⟨"790", "P2", 7, none, 1, "inactive"⟩] true).tail,
        r.endpoint = "/erp/products/sync") ∧
    (true = false →
      ∀ r ∈ syncRequests [⟨"789", "P1", 5, none, 3, "active"⟩,
        ⟨"790", "P2", 7, none, 1, "inactive"⟩] true,
        r.endpoint = "/erp/products/sync") :=
  claim10_sync_batching
    [⟨"789", "P1", 5, none, 3, "active"⟩, ⟨"790", "P2", 7, none, 1, "inactive"⟩] true

/-- C8 counterexample: the result is not invariant under replacing spaces by
underscores. `" CONFIRMED "` maps to `COM`, but replacing its spaces by
underscores yields `"_CONFIRMED_"`, which maps to `PLC`: the code trims
before substituting, so substituting the leading/trailing spaces first hides
them from the trim. -/
theorem claim8_counterexample :
    jsUnderscoreSpaces " CONFIRMED " = "_CONFIRMED_" ∧
    mapApiStatusToEnum (some " CONFIRMED ") = .COM ∧
    mapApiStatusToEnum (some "_CONFIRMED_") = .PLC :=
  ⟨rfl, rfl, rfl⟩

/-- C8 (amended): `mapApiStatusToEnum` is total; an absent, empty, or
unrecognized input maps to `PLC`; the result is invariant under
leading/trailing whitespace and letter case, and under replacing spaces by
underscores for inputs without leading or trailing whitespace (the code
trims before substituting); `"PLACED"`, `" placed "` and `"PLC"` map to
`PLC`, both `"CANCELLED"` and `"CANCELED"` map to `CAN`, and `"RFI"` maps to
`SPE`. -/
theorem claim8_status_normalization (s : String) :
    mapApiStatusToEnum none = .PLC ∧
    mapApiStatusToEnum (some "") = .PLC ∧
    mapApiStatusToEnum (some "FOO") = .PLC ∧
    mapApiStatusToEnum (some (jsTrim s)) = mapApiStatusToEnum (some s) ∧
    mapApiStatusToEnum (some (jsToUpper s)) = mapApiStatusToEnum (some s) ∧
    mapApiStatusToEnum (some (jsToLower s)) = mapApiStatusToEnum (some s) ∧
    (jsTrim s = s →
      mapApiStatusToEnum (some (jsUnderscoreSpaces s)) =
        mapApiStatusToEnum (some s)) ∧
    mapApiStatusToEnum (some "PLACED") = .PLC ∧
    mapApiStatusToEnum (some " placed ") = .PLC ∧
    mapApiStatusToEnum (some "PLC") = .PLC ∧
    mapApiStatusToEnum (some "CANCELLED") = .CAN ∧
    mapApiStatusToEnum (some "CANCELED") = .CAN ∧
    mapApiStatusToEnum (some "RFI") = .SPE := by
  refine ⟨rfl, rfl, rfl, ?_, ?_, ?_, ?_, rfl, rfl, rfl, rfl, rfl, rfl⟩
  · rw [mapApiStatus_eq, mapApiStatus_eq, normalizeStatus_trim]
  · rw [mapApiStatus_eq, mapApiStatus_eq, normalizeStatus_upper]
  · rw [mapApiStatus_eq, mapApiStatus_eq, normalizeStatus_lower]
  · intro h
    rw [mapApiStatus_eq, mapApiStatus_eq, normalizeStatus_underscore h]

/-- C8 witness: trim-invariance on `" placed "` and underscore-invariance on
the already-trimmed `"CANCELLATION REQUESTED"` (whose trimmedness discharges
the hypothesis). -/
theorem claim8_status_normalization_witness :
    mapApiStatusToEnum (some (jsTrim " placed ")) =
      mapApiStatusToEnum (some " placed ") ∧
    mapApiStatusToEnum (some (jsUnderscoreSpaces "CANCELLATION REQUESTED")) =
      mapApiStatusToEnum (some "CANCELLATION REQUESTED") :=
  ⟨(claim8_status_normalization " placed ").2.2.2.1,
   (claim8_status_normalization "CANCELLATION REQUESTED").2.2.2.2.2.2.1 rfl⟩

end Hub
